import Mathlib

/-!
Verification development for the multi-chain deposit verification engine.

The definitions below are shallow embeddings of the TypeScript source:

* `src/src/services/depositVerificationService.ts` — `verifyDeposit`,
  `updateDepositWithTransaction`, `calculateTokenAmount`;
* `src/src/modules/deposit/deposit.service.ts` — `startVerificationProcess`;
* `transactionVerificationService` (`src/unnamed/part_004`) —
  `verifyTransaction`, `isValidTransactionHash`, the verification cache;
* `transactionUtils` (`src/unnamed/part_006`) — `hexToEther`;
* the TON helpers (`src/unnamed/part_005`) — `extractTonTokenTransfers`
  fallback paths, `detectJettonTransfersFromMetadata`, `formatJettonAmount`.

JavaScript number arithmetic appearing in the source (`parseFloat`,
`Math.abs`, division, multiplication, `>` comparison) is embedded as exact
rational arithmetic extended with the IEEE special values `Infinity`,
`-Infinity`, `NaN` and the signed negative zero `-0` (`JsNum` below);
rounding of a real to a 64-bit float
is modelled separately (`f64round`) where a claim is about precision loss.
-/

namespace DepositEngine

/-- JavaScript number: a finite value (modelled exactly as a rational,
`num 0` standing for `+0`), the IEEE negative zero `-0`, positive or
negative infinity, or NaN. -/
inductive JsNum where
  | num : ℚ → JsNum
  | negZero : JsNum
  | posInf : JsNum
  | negInf : JsNum
  | nan : JsNum
deriving DecidableEq

namespace JsNum

/-- JS equality with zero (`x == 0`, equivalently `x === 0`): the negative
zero compares equal to `0`. -/
def eqZero : JsNum → Bool
  | num q => decide (q = 0)
  | negZero => true
  | _ => false

/-- JS subtraction `a - b` (a finite difference of equal operands is `+0`;
`-0 - 0` is `-0`). -/
def sub : JsNum → JsNum → JsNum
  | num a, num b => num (a - b)
  | num a, negZero => num a
  | num _, posInf => negInf
  | num _, negInf => posInf
  | negZero, num b => if b = 0 then negZero else num (-b)
  | negZero, negZero => num 0
  | negZero, posInf => negInf
  | negZero, negInf => posInf
  | posInf, num _ => posInf
  | posInf, negZero => posInf
  | posInf, posInf => nan
  | posInf, negInf => posInf
  | negInf, num _ => negInf
  | negInf, negZero => negInf
  | negInf, posInf => negInf
  | negInf, negInf => nan
  | nan, _ => nan
  | _, nan => nan

/-- JS `Math.abs`. -/
def abs : JsNum → JsNum
  | num a => num |a|
  | negZero => num 0
  | posInf => posInf
  | negInf => posInf
  | nan => nan

/-- JS division `a / b`, with IEEE sign rules for zero results: a
positive value divided by `-0` is `-Infinity`, `+0` divided by a negative
value is `-0`, and so on. -/
def div : JsNum → JsNum → JsNum
  | num a, num b =>
      if b = 0 then
        if a = 0 then nan else if 0 < a then posInf else negInf
      else if a = 0 ∧ b < 0 then negZero
      else num (a / b)
  | num a, negZero => if a = 0 then nan else if 0 < a then negInf else posInf
  | negZero, num b => if b = 0 then nan else if 0 < b then negZero else num 0
  | negZero, negZero => nan
  | negZero, posInf => negZero
  | negZero, negInf => num 0
  | num a, posInf => if a < 0 then negZero else num 0
  | num a, negInf => if a < 0 then num 0 else negZero
  | posInf, num b => if 0 ≤ b then posInf else negInf
  | posInf, negZero => negInf
  | negInf, num b => if 0 ≤ b then negInf else posInf
  | negInf, negZero => posInf
  | posInf, posInf => nan
  | posInf, negInf => nan
  | negInf, posInf => nan
  | negInf, negInf => nan
  | nan, _ => nan
  | _, nan => nan

/-- JS multiplication `a * b`, with IEEE sign rules for zero results. -/
def mul : JsNum → JsNum → JsNum
  | num a, num b =>
      if a * b = 0 ∧ (a < 0 ∨ b < 0) then negZero else num (a * b)
  | num a, negZero => if a < 0 then num 0 else negZero
  | negZero, num b => if b < 0 then num 0 else negZero
  | negZero, negZero => num 0
  | negZero, posInf => nan
  | negZero, negInf => nan
  | num a, posInf => if a = 0 then nan else if 0 < a then posInf else negInf
  | num a, negInf => if a = 0 then nan else if 0 < a then negInf else posInf
  | posInf, num b => if b = 0 then nan else if 0 < b then posInf else negInf
  | posInf, negZero => nan
  | negInf, num b => if b = 0 then nan else if 0 < b then negInf else posInf
  | negInf, negZero => nan
  | posInf, posInf => posInf
  | posInf, negInf => negInf
  | negInf, posInf => negInf
  | negInf, negInf => posInf
  | nan, _ => nan
  | _, nan => nan

/-- JS comparison `a > b` (false whenever either side is NaN; `-0`
compares equal to `0`). -/
def gt : JsNum → JsNum → Bool
  | num a, num b => decide (b < a)
  | num a, negZero => decide (0 < a)
  | negZero, num b => decide (b < 0)
  | negZero, negZero => false
  | negZero, posInf => false
  | negZero, negInf => true
  | num _, posInf => false
  | num _, negInf => true
  | posInf, num _ => true
  | posInf, negZero => true
  | posInf, posInf => false
  | posInf, negInf => true
  | negInf, _ => false
  | nan, _ => false
  | _, nan => false

end JsNum

/-! ### Decimal strings: parsing and rendering -/

/-- Numeric value of one decimal digit character. -/
def digitVal (c : Char) : ℕ := c.toNat - 48

/-- Character for one decimal digit. -/
def digitChar (d : ℕ) : Char := Char.ofNat (48 + d)

/-- Value of a most-significant-first decimal digit list. -/
def digitsToNat (l : List Char) : ℕ :=
  l.foldl (fun n c => n * 10 + digitVal c) 0

/-- Base-10 digits of `n`, least significant first, computed with explicit
fuel (`fuel ≥ n` suffices). -/
def natDigitsAux : ℕ → ℕ → List ℕ
  | 0, _ => []
  | _ + 1, 0 => []
  | fuel + 1, n + 1 => ((n + 1) % 10) :: natDigitsAux fuel ((n + 1) / 10)

/-- Decimal rendering of a natural number, as the JS `BigInt.toString()`
produces it (most significant digit first, `"0"` for zero). -/
def natToChars (n : ℕ) : List Char :=
  if n = 0 then ['0'] else ((natDigitsAux n n).map digitChar).reverse

/-- Parse of a digit run: the JS `parseFloat` integer/fraction part. -/
def isDigitChar (c : Char) : Bool := decide ('0' ≤ c) && decide (c ≤ '9')

/-- `parseFloat` on the decimal strings the engine produces: optional sign,
an integer digit run, an optional `.`-separated fraction digit run; `NaN`
when no digit is found.  (The source never feeds exponent forms to
`parseFloat`, so they are not modelled.) -/
def parseFloat (s : String) : JsNum :=
  let core : List Char → JsNum := fun l =>
    let intPart := l.takeWhile isDigitChar
    let rest := l.dropWhile isDigitChar
    let fracPart :=
      match rest with
      | c :: r => if c == '.' then r.takeWhile isDigitChar else []
      | [] => []
    if intPart = [] ∧ fracPart = [] then JsNum.nan
    else
      JsNum.num ((digitsToNat intPart : ℚ) +
        (digitsToNat fracPart : ℚ) / (10 : ℚ) ^ fracPart.length)
  match s.data with
  | [] => JsNum.nan
  | c :: l =>
      if c == '-' then
        match core l with
        | JsNum.num q => if q = 0 then JsNum.negZero else JsNum.num (-q)
        | x => x
      else if c == '+' then core l
      else core (c :: l)

/-- Drop trailing `'0'` characters, as the source's `replace(/0+$/, '')`. -/
def trimTrailingZeros (l : List Char) : List Char :=
  (l.reverse.dropWhile (fun c => c == '0')).reverse

/-- Left-pad a digit list with `'0'` up to `width`, as `padStart(width, '0')`. -/
def padStartZeros (width : ℕ) (l : List Char) : List Char :=
  List.replicate (width - l.length) '0' ++ l

/-- `calculateTokenAmount` from `depositVerificationService.ts`: BigInt
division of a raw integer amount string by `10^decimals`, rendered as a
decimal string with trailing fraction zeros trimmed; an unparsable value is
returned unchanged (the `catch` branch). -/
def calculateTokenAmount (value : String) (decimals : ℕ) : String :=
  match value.data with
  | [] => value
  | l =>
      if l.all isDigitChar then
        let valueInWei := digitsToNat l
        let divisor := 10 ^ decimals
        let majorUnits := valueInWei / divisor
        let remainder := valueInWei % divisor
        if remainder = 0 then ⟨natToChars majorUnits⟩
        else
          ⟨natToChars majorUnits ++ '.' ::
            trimTrailingZeros (padStartZeros decimals (natToChars remainder))⟩
      else value

/-- `formatJettonAmount` from the TON helpers (`part_005`): identical BigInt
division shape, used for native TON and jetton display amounts. -/
def formatJettonAmount (rawAmount : String) (decimals : ℕ) : String :=
  match rawAmount.data with
  | [] => rawAmount
  | l =>
      if l.all isDigitChar then
        let amount := digitsToNat l
        let divisor := 10 ^ decimals
        let whole := amount / divisor
        let fraction := amount % divisor
        let fractionStr := trimTrailingZeros (padStartZeros decimals (natToChars fraction))
        if fractionStr = [] then ⟨natToChars whole⟩
        else ⟨natToChars whole ++ '.' :: fractionStr⟩
      else rawAmount

/-! ### Deposit data model (`deposit.model.ts`, `part_002` variant with TON) -/

/-- `DepositStatus` string enum. -/
inductive DepositStatus where
  | pending
  | verifying
  | confirmed
  | rejected
  | failed
deriving DecidableEq, Repr

/-- Terminal statuses per the spec's state machine. -/
def DepositStatus.isTerminal : DepositStatus → Bool
  | .confirmed => true
  | .rejected => true
  | .failed => true
  | _ => false

/-- Network codes of the `NetworkType` enum: ETHEREUM = 0, BSC = 1,
SOLANA = 2, TON = 3. -/
def NetworkType.ETHEREUM : ℕ := 0
def NetworkType.BSC : ℕ := 1
def NetworkType.SOLANA : ℕ := 2
def NetworkType.TON : ℕ := 3

/-- One deposit record (the mongoose `Deposit` document).  Timestamps are
millisecond epoch integers; `id` stands for the document `_id`. -/
structure Deposit where
  id : ℕ
  userId : String
  network : ℕ
  depositAmount : String
  status : DepositStatus
  transactionHash : Option String
  depositAddress : String
  requestTimestamp : ℤ
  verificationTimestamp : Option ℤ
  platformTokenAmount : String
deriving DecidableEq, Repr

/-- One entry of `tokenTransfers` / `erc20Transfers` in the fetched
transaction details (only the `value` field is consumed by
`verifyDeposit`). -/
structure TransferEntry where
  value : String
deriving DecidableEq, Repr

/-- The `data` object of the fetched transaction details. -/
structure TxData where
  block_timestamp : ℤ
  tokenTransfers : List TransferEntry
  erc20Transfers : List TransferEntry
deriving DecidableEq, Repr

/-- The fetched transaction details (`moralisService` response). -/
structure TxDetails where
  success : Bool
  data : TxData
deriving DecidableEq, Repr

/-- Result object returned by `verifyDeposit`. -/
structure VerifyResponse where
  success : Bool
  message : String
  depositId : Option ℕ
  amount : Option String
  expected : Option JsNum
  actual : Option JsNum
deriving DecidableEq

/-- Replace the first element satisfying `p` by its image under `f`
(models saving the single mongoose document returned by `findOne` /
`findById` back into the store). -/
def replaceFirst (p : Deposit → Bool) (f : Deposit → Deposit) :
    List Deposit → List Deposit
  | [] => []
  | d :: ds => if p d then f d :: ds else d :: replaceFirst p f ds

/-- The `findOne` filter of `verifyDeposit`: same user, network and claimed
amount, status PENDING. -/
def depositMatches (userId : String) (network : ℕ) (amount : String)
    (d : Deposit) : Bool :=
  d.userId == userId && d.network == network && d.depositAmount == amount &&
    d.status == DepositStatus.pending

/-- Amount extraction of `verifyDeposit`: first `tokenTransfers` entry for
TON and SOLANA, first `erc20Transfers` entry for ETHEREUM/BSC (converted
from wei when the raw string is longer than 18 characters), `"0"`
otherwise. -/
def extractTransferredAmount (network : ℕ) (td : TxDetails) : String :=
  if network == NetworkType.TON then
    match td.data.tokenTransfers with
    | t :: _ => t.value
    | [] => "0"
  else if network == NetworkType.ETHEREUM || network == NetworkType.BSC then
    match td.data.erc20Transfers with
    | t :: _ =>
        if t.value.length > 18 then calculateTokenAmount t.value 18 else t.value
    | [] => "0"
  else if network == NetworkType.SOLANA then
    match td.data.tokenTransfers with
    | t :: _ => t.value
    | [] => "0"
  else "0"

/-- The percentage-difference mismatch test of `verifyDeposit`:
`Math.abs(expected - actual) / expected * 100 > 2`, in JS number
semantics. -/
def amountMismatch (expected actual : JsNum) : Bool :=
  JsNum.gt
    (JsNum.mul (JsNum.div (JsNum.abs (JsNum.sub expected actual)) expected)
      (JsNum.num 100))
    (JsNum.num 2)

/-- `verifyDeposit` of `depositVerificationService.ts`.  `details` is the
adapter response for `transactionHash` on `network` (the `moralisService`
call), `now` the clock value used for `new Date()`.  Returns the response
object and the updated deposit store. -/
def verifyDeposit (store : List Deposit) (userId transactionHash : String)
    (network : ℕ) (amount : String) (details : Option TxDetails) (now : ℤ) :
    VerifyResponse × List Deposit :=
  match store.find? (depositMatches userId network amount) with
  | none =>
      ({ success := false, message := "No matching deposit request found",
         depositId := none, amount := none, expected := none, actual := none },
       store)
  | some pendingDeposit =>
      match details with
      | none =>
          ({ success := false, message := "Failed to retrieve transaction details",
             depositId := none, amount := none, expected := none, actual := none },
           store)
      | some td =>
          if !td.success then
            ({ success := false, message := "Failed to retrieve transaction details",
               depositId := none, amount := none, expected := none, actual := none },
             store)
          else if td.data.block_timestamp < pendingDeposit.requestTimestamp then
            ({ success := false, message := "Transaction occurred before deposit request",
               depositId := none, amount := none, expected := none, actual := none },
             replaceFirst (depositMatches userId network amount)
               (fun d => { d with status := DepositStatus.rejected,
                                  transactionHash := some transactionHash }) store)
          else
            let transferredAmount := extractTransferredAmount network td
            let expectedAmount := parseFloat amount
            let actualAmount := parseFloat transferredAmount
            if amountMismatch expectedAmount actualAmount then
              ({ success := false,
                 message := "Transaction amount does not match deposit request",
                 depositId := none, amount := none,
                 expected := some expectedAmount, actual := some actualAmount },
               replaceFirst (depositMatches userId network amount)
                 (fun d => { d with status := DepositStatus.rejected,
                                    transactionHash := some transactionHash }) store)
            else
              ({ success := true, message := "Deposit verified successfully",
                 depositId := some pendingDeposit.id,
                 amount := some transferredAmount,
                 expected := none, actual := none },
               replaceFirst (depositMatches userId network amount)
                 (fun d => { d with status := DepositStatus.confirmed,
                                    transactionHash := some transactionHash,
                                    verificationTimestamp := some now }) store)

/-- `updateDepositWithTransaction` of `depositVerificationService.ts`:
`findById`, then unconditionally record the hash and set status VERIFYING.
`none` models the thrown "not found" error. -/
def updateDepositWithTransaction (store : List Deposit) (depositId : ℕ)
    (transactionHash : String) : Option (Deposit × List Deposit) :=
  match store.find? (fun d => d.id == depositId) with
  | none => none
  | some deposit =>
      let updated := { deposit with transactionHash := some transactionHash,
                                    status := DepositStatus.verifying }
      some (updated,
        replaceFirst (fun d => d.id == depositId) (fun _ => updated) store)

/-- `startVerificationProcess` of `deposit.service.ts`: set status
VERIFYING, then — according to the boolean returned by
`transactionVerificationService.verifyTransaction` — either CONFIRMED with
`platformTokenAmount = amount` (1:1 with the claimed amount) and
`verificationTimestamp = now`, or FAILED. -/
def startVerificationProcess (store : List Deposit) (depositId : ℕ)
    (amount : String) (isVerified : Bool) (now : ℤ) : List Deposit :=
  let s1 := replaceFirst (fun d => d.id == depositId)
    (fun d => { d with status := DepositStatus.verifying }) store
  if isVerified then
    replaceFirst (fun d => d.id == depositId)
      (fun d => { d with status := DepositStatus.confirmed,
                         platformTokenAmount := amount,
                         verificationTimestamp := some now }) s1
  else
    replaceFirst (fun d => d.id == depositId)
      (fun d => { d with status := DepositStatus.failed }) s1

/-! ### Transaction verification service (`part_004`) -/

/-- Hexadecimal character class `[0-9a-fA-F]`. -/
def isHexChar (c : Char) : Bool :=
  (decide ('0' ≤ c) && decide (c ≤ '9')) ||
  (decide ('a' ≤ c) && decide (c ≤ 'f')) ||
  (decide ('A' ≤ c) && decide (c ≤ 'F'))

/-- Base58 character class `[1-9A-HJ-NP-Za-km-z]` (no `0`, `O`, `I`, `l`). -/
def isBase58Char (c : Char) : Bool :=
  (decide ('1' ≤ c) && decide (c ≤ '9')) ||
  (decide ('A' ≤ c) && decide (c ≤ 'H')) ||
  (decide ('J' ≤ c) && decide (c ≤ 'N')) ||
  (decide ('P' ≤ c) && decide (c ≤ 'Z')) ||
  (decide ('a' ≤ c) && decide (c ≤ 'k')) ||
  (decide ('m' ≤ c) && decide (c ≤ 'z'))

/-- The regex `/^0x[0-9a-fA-F]{64}$/`. -/
def evmHashMatch (s : String) : Bool :=
  match s.data with
  | a :: b :: rest =>
      a == '0' && b == 'x' && rest.length == 64 && rest.all isHexChar
  | _ => false

/-- The regex `/^[1-9A-HJ-NP-Za-km-z]{43,44}$/`. -/
def solanaHashMatch (s : String) : Bool :=
  (s.data.length == 43 || s.data.length == 44) && s.data.all isBase58Char

/-- `isValidTransactionHash` of the transaction verification service.
`devMode` is `process.env.NODE_ENV === 'development'` (the permissive
flag): then any string longer than 10 characters passes.  Otherwise the
per-network pattern is applied (ETHEREUM = 0 and BSC = 1 share the EVM
pattern, SOLANA = 2 uses Base58 length 43-44, anything else is
rejected). -/
def isValidTransactionHash (devMode : Bool) (txHash : String) (network : ℕ) :
    Bool :=
  if devMode then !(txHash == "") && txHash.length > 10
  else if txHash == "" then false
  else if network == NetworkType.ETHEREUM || network == NetworkType.BSC then
    evmHashMatch txHash
  else if network == NetworkType.SOLANA then
    solanaHashMatch txHash
  else false

/-- The in-memory verification cache `Map<string, boolean>`; `set` is
modelled by prepending and `get` by first-match lookup, so the latest
`set` for a hash wins, as in the mutable map. -/
def VCache := List (String × Bool)

/-- Cache lookup (`has` + `get`). -/
def cacheGet (c : VCache) (txHash : String) : Option Bool :=
  match c with
  | [] => none
  | (h, b) :: rest => if h == txHash then some b else cacheGet rest txHash

/-- Cache write (`set`). -/
def cacheSet (c : VCache) (txHash : String) (b : Bool) : VCache :=
  (txHash, b) :: c

/-- The per-network fetch outcome consumed by `verifyTransaction`: the
`success` flag and the optional numeric `value` of the transaction
details object built by `verifyEthereumTransaction` /
`verifyBscTransaction` / `verifySolanaTransaction`. -/
structure TxSummary where
  success : Bool
  value : Option ℚ
deriving DecidableEq

/-- `verifyTransaction` of the transaction verification service.
Inputs beyond the source signature make the environment explicit:
`devMode` the permissive flag, `skipFlag` the `SKIP_BLOCKCHAIN_VERIFICATION`
flag, and `adapter` the (deterministic) per-network fetch outcome that the
switch would produce for `txHash`.  Returns the boolean outcome, the
updated cache, and whether the chain adapter was invoked. -/
def verifyTransaction (c : VCache) (txHash amount : String) (network : ℕ)
    (devMode skipFlag : Bool) (adapter : Option TxSummary) :
    Bool × VCache × Bool :=
  match cacheGet c txHash with
  | some b => (b, c, false)
  | none =>
      if !(isValidTransactionHash devMode txHash network) then
        (false, cacheSet c txHash false, false)
      else if skipFlag then
        (true, cacheSet c txHash true, false)
      else
        let fetched := network == NetworkType.ETHEREUM ||
          network == NetworkType.BSC || network == NetworkType.SOLANA
        let isValid0 : Bool :=
          if fetched then
            match adapter with
            | some t => t.success
            | none => false
          else false
        let isValid : Bool :=
          if isValid0 then
            match adapter with
            | some t =>
                match t.value with
                | some v =>
                    if v ≠ 0 ∧ ¬(amount == "") then
                      let expectedAmount := parseFloat amount
                      let difference := JsNum.div
                        (JsNum.abs (JsNum.sub expectedAmount (JsNum.num v)))
                        expectedAmount
                      if JsNum.gt difference (JsNum.num (2 / 100)) then false
                      else isValid0
                    else isValid0
                | none => isValid0
            | none => isValid0
          else isValid0
        (isValid, cacheSet c txHash isValid, fetched)

/-! ### IEEE-754 double rounding and `hexToEther` (`part_006`)

`transactionUtils.hexToEther` runs `Number(wei) / Math.pow(10, 18)`:
`Number(wei)` rounds the arbitrary-precision integer to the nearest 64-bit
binary float, and the division rounds again.  `f64round` below computes the
exact rational value of the nearest double (round to nearest, ties to even)
for inputs in the normal range, which covers every value appearing here. -/

/-- Round a nonnegative rational to the nearest integer, ties to even. -/
def roundHalfEven (q : ℚ) : ℤ :=
  let f := ⌊q⌋
  let r := q - f
  if r < 1 / 2 then f
  else if 1 / 2 < r then f + 1
  else if f % 2 = 0 then f else f + 1

/-- Scale a positive rational into the mantissa range `[2^52, 2^53)` by
powers of two, returning the scaled value and the exponent. -/
def f64normalize : ℕ → ℚ → ℤ → ℚ × ℤ
  | 0, q, e => (q, e)
  | fuel + 1, q, e =>
      if q < 2 ^ 52 then f64normalize fuel (q * 2) (e - 1)
      else if 2 ^ 53 ≤ q then f64normalize fuel (q / 2) (e + 1)
      else (q, e)

/-- Value of the float with mantissa rounded from the normalized form. -/
def f64roundPos (q : ℚ) : ℚ :=
  let me := f64normalize 4200 q 0;
  (roundHalfEven me.1 : ℚ) * (2 : ℚ) ^ me.2

/-- Exact value of the 64-bit float nearest to `q` (normal range). -/
def f64round (q : ℚ) : ℚ :=
  if q = 0 then 0
  else if q < 0 then -f64roundPos (-q)
  else f64roundPos q

/-- Hexadecimal digit value. -/
def hexVal (c : Char) : ℕ :=
  if isDigitChar c then c.toNat - 48
  else if decide ('a' ≤ c) && decide (c ≤ 'f') then c.toNat - 87
  else c.toNat - 55

/-- `BigInt` parse of a `0x`-prefixed hex string (the form `hexToEther`
receives from the RPC response). -/
def bigIntOfHex (s : String) : ℕ :=
  match s.data with
  | '0' :: 'x' :: rest => rest.foldl (fun n c => n * 16 + hexVal c) 0
  | l => digitsToNat l

/-- `hexToEther` of `transactionUtils`: `Number(BigInt(hex)) / 1e18`, with
both the integer-to-double conversion and the division rounding to the
nearest 64-bit float (`Math.pow(10, 18)` is exactly representable). -/
def hexToEther (hex : String) : ℚ :=
  f64round (f64round (bigIntOfHex hex : ℚ) / 10 ^ 18)

/-! ### TON token-transfer extraction (`part_005`)

`extractTonTokenTransfers` first records any detected native TON value,
then scans message bodies for jetton opcodes, then falls back to comment
text matching, and finally — only when the transfer list is still empty —
to `detectJettonTransfersFromMetadata`.  The embedding below covers the
case relevant to the claims: a transaction in which the opcode scan
recognizes nothing (`jettonTransferDetected` stays `false` and the scan
pushes no transfer); the elided cell-parsing branches are exactly those
that the claims' precondition rules out. -/

/-- `includes` of JS strings: `pat` occurs as a contiguous substring. -/
def strIncludes (s pat : String) : Bool :=
  go pat.data s.data
where
  /-- `pref` is a prefix of `l`. -/
  isPrefixChars : List Char → List Char → Bool
    | [], _ => true
    | _ :: _, [] => false
    | a :: as, b :: bs => a == b && isPrefixChars as bs
  /-- `pat` occurs in `l` at some position. -/
  go (pat : List Char) : List Char → Bool
    | [] => isPrefixChars pat []
    | c :: rest => isPrefixChars pat (c :: rest) || go pat rest

/-- `info` of a TON message (`src`, `dest`, `value.coins`). -/
structure TonMsgInfo where
  src : Option String
  dest : Option String
  valueCoins : Option ℕ
deriving DecidableEq

/-- `body` of a TON message: the decoded `comment` and `text` fields
(present only when the cell decodes to text). -/
structure TonMsgBody where
  comment : Option String
  text : Option String
deriving DecidableEq

/-- A TON message. -/
structure TonMessage where
  info : Option TonMsgInfo
  body : Option TonMsgBody
deriving DecidableEq

/-- The fields of a TON transaction object consumed by the extraction
fallbacks. -/
structure TonTx where
  inMessage : Option TonMessage
  outMessages : List TonMessage
  totalFeesCoins : Option ℕ
  balanceChange : Option ℤ
  description : Option String
deriving DecidableEq

/-- One extracted transfer entry. -/
structure TonTransfer where
  tokenName : String
  tokenAddress : String
  decimals : ℕ
  fromAddr : String
  toAddr : String
  value : String
deriving DecidableEq

/-- `tx.inMessage?.info?.src?.toString() || ''`. -/
def tonSrc (tx : TonTx) : String :=
  (((tx.inMessage.bind TonMessage.info).bind TonMsgInfo.src).getD "")

/-- `tx.inMessage?.info?.dest?.toString() || ''`. -/
def tonDest (tx : TonTx) : String :=
  (((tx.inMessage.bind TonMessage.info).bind TonMsgInfo.dest).getD "")

/-- `tx.inMessage?.info?.value?.coins`, `0` when absent. -/
def tonCoins (tx : TonTx) : ℕ :=
  (((tx.inMessage.bind TonMessage.info).bind TonMsgInfo.valueCoins).getD 0)

/-- The native TON value detection at the top of
`extractTonTokenTransfers`: the inbound coins, replaced by
`coins - totalFees` when both are truthy and the coins exceed the fees. -/
def tonValueOf (tx : TonTx) : ℕ :=
  let v0 := tonCoins tx
  match tx.totalFeesCoins with
  | some fees =>
      if fees ≠ 0 ∧ tonCoins tx ≠ 0 ∧ fees < tonCoins tx then tonCoins tx - fees
      else v0
  | none => v0

/-- The USDT jetton-master address hardcoded in the fallbacks. -/
def usdtJettonMaster : String := "EQBynBO23ywHy_CgarY9NK9FTz0yDsG82PtcbSTQgGoXwiuA"

/-- A fallback-detected USDT transfer entry. -/
def usdtEntry (fromAddr toAddr value : String) : TonTransfer :=
  { tokenName := "USDT", tokenAddress := usdtJettonMaster, decimals := 6,
    fromAddr := fromAddr, toAddr := toAddr, value := value }

/-- The hardcoded `knownJettonWallets` list of
`detectJettonTransfersFromMetadata`. -/
def knownJettonWallets : List String :=
  ["UQA4P3jvl_SKKFHlNMICwqNJEGdPwDpR8LUEwKg_Z-MDI2Ei",
   "EQA4P3jvl_SKKFHlNMICwqNJEGdPwDpR8LUEwKg_Z-MDIzzn",
   "EQCcLAW537KnRoJop1rAUrC_Mkz9FYV2wT_jzUuHq0YTf2IA",
   "EQCajaHABZ9vM8ny9ECJ0ZxOvOvGdOXP4J5KzR7ejOmAUYP7"]

/-- First match of the regex `/\d+(\.\d+)?/`: the leftmost maximal digit
run, extended by a fractional part when a `.` followed by a digit comes
next. -/
def firstNumMatch : List Char → Option (List Char)
  | [] => none
  | c :: rest =>
      if isDigitChar c then
        let ds := (c :: rest).takeWhile isDigitChar
        let tail := (c :: rest).dropWhile isDigitChar
        match tail with
        | '.' :: r2 =>
            let fs := r2.takeWhile isDigitChar
            if fs = [] then some ds else some (ds ++ '.' :: fs)
        | _ => some ds
      else firstNumMatch rest

/-- `detectJettonTransfersFromMetadata` (`part_005`): the final heuristic
fallback.  An inbound source equal to the hardcoded example address yields
a USDT transfer of `'10'` immediately; otherwise USDT mentions in
`tx.description` (amount from the first number match, default `'0'`) and in
`tx.inMessage.body.text` (default `'10'`) each push an entry, and a source
or destination in `knownJettonWallets` pushes a USDT transfer of `'10'`. -/
def detectJettonTransfersFromMetadata (tx : TonTx) : List TonTransfer :=
  let fromAddress := tonSrc tx
  let toAddress := tonDest tx
  if fromAddress == "UQA4P3jvl_SKKFHlNMICwqNJEGdPwDpR8LUEwKg_Z-MDI2Ei" then
    [usdtEntry fromAddress toAddress "10"]
  else
    let txDescription := tx.description.getD ""
    let t1 : List TonTransfer :=
      if strIncludes txDescription "USDT" || strIncludes txDescription "Tether" ||
          strIncludes txDescription.toLower "usdt" then
        [usdtEntry fromAddress toAddress
          (match firstNumMatch txDescription.data with
           | some n => ⟨n⟩
           | none => "0")]
      else []
    let t2 : List TonTransfer :=
      match (tx.inMessage.bind TonMessage.body).bind TonMsgBody.text with
      | some comment =>
          if ¬(comment == "") &&
              (strIncludes comment "USDT" || strIncludes comment "Tether") then
            [usdtEntry fromAddress toAddress
              (match firstNumMatch comment.data with
               | some n => ⟨n⟩
               | none => "10")]
          else []
      | none => []
    let t3 : List TonTransfer :=
      if fromAddress ∈ knownJettonWallets || toAddress ∈ knownJettonWallets then
        [usdtEntry fromAddress toAddress "10"]
      else []
    t1 ++ t2 ++ t3

/-- The `comment` variable of the inline USDT fallback:
`tx.inMessage?.body?.comment || tx.description || ''`. -/
def tonCommentOf (tx : TonTx) : String :=
  match (tx.inMessage.bind TonMessage.body).bind TonMsgBody.comment with
  | some s => if s == "" then tx.description.getD "" else s
  | none => tx.description.getD ""

/-- A detected native TON transfer entry. -/
def tonNativeEntry (tx : TonTx) (raw : ℕ) : TonTransfer :=
  { tokenName := "TON", tokenAddress := "native", decimals := 9,
    fromAddr := tonSrc tx, toAddr := tonDest tx,
    value := formatJettonAmount ⟨natToChars raw⟩ 9 }

/-- `extractTonTokenTransfers` (`part_005`) specialized to a transaction in
which the jetton-opcode scan recognizes nothing: the native TON value and
`balanceChange` entries, then the USDT comment fallback (the comment being
`inMessage.body.comment || tx.description || ''`), and — when still no
transfer was found — the metadata fallback. -/
def extractTonTokenTransfersNoOpcode (tx : TonTx) : List TonTransfer :=
  let t1 : List TonTransfer :=
    if 0 < tonValueOf tx then [tonNativeEntry tx (tonValueOf tx)] else []
  let t2 : List TonTransfer := t1 ++
    (match tx.balanceChange with
     | some b =>
        if b ≠ 0 then
          [{ tonNativeEntry tx b.natAbs with
             toAddr := (((tx.inMessage.bind TonMessage.info).bind
               TonMsgInfo.dest).getD "unknown") }]
        else []
     | none => [])
  let t3 : List TonTransfer :=
    if tx.inMessage.isSome || tx.outMessages.length > 0 then
      let comment := tonCommentOf tx
      if strIncludes comment "USDT" || strIncludes comment "Tether" then
        t2 ++ [usdtEntry (tonSrc tx) (tonDest tx) "10"]
      else t2
    else t2
  if t3.length = 0 then t3 ++ detectJettonTransfersFromMetadata tx else t3

/-! ### Spec-side format predicates and concrete fixtures -/

/-- Hash format stated by the spec for EVM networks: `0x` followed by
exactly 64 hexadecimal characters. -/
def specEvmHashFormat (s : String) : Prop :=
  s.data.length = 66 ∧ s.data.take 2 = ['0', 'x'] ∧
    ∀ c ∈ s.data.drop 2, isHexChar c = true

/-- Hash format stated by the spec for SOLANA: a Base58-alphabet string of
length 43 or 44. -/
def specSolanaHashFormat (s : String) : Prop :=
  (s.data.length = 43 ∨ s.data.length = 44) ∧ ∀ c ∈ s.data, isBase58Char c = true

/-- A pending ETH deposit: alice claims 100, requested at time 1000. -/
def dPendingEth : Deposit :=
  { id := 1, userId := "alice", network := 0, depositAmount := "100",
    status := DepositStatus.pending, transactionHash := none,
    depositAddress := "0x4B56723cF326a1f922E3F83e5D3bD9114608Bd05",
    requestTimestamp := 1000, verificationTimestamp := none,
    platformTokenAmount := "0" }

/-- A confirmed (terminal) deposit. -/
def dConfirmedEth : Deposit :=
  { id := 2, userId := "carol", network := 0, depositAmount := "50",
    status := DepositStatus.confirmed, transactionHash := some "0xold",
    depositAddress := "0x4B56723cF326a1f922E3F83e5D3bD9114608Bd05",
    requestTimestamp := 100, verificationTimestamp := some 200,
    platformTokenAmount := "50" }

/-- A successful fetched transaction carrying an exact ERC-20 transfer of
100, mined at time 500 (before `dPendingEth`'s request). -/
def tdEarly : TxDetails :=
  { success := true,
    data := { block_timestamp := 500, tokenTransfers := [],
              erc20Transfers := [{ value := "100" }] } }

/-- A successful fetched transaction carrying an exact ERC-20 transfer of
100, mined at time 2000 (after `dPendingEth`'s request). -/
def tdExact : TxDetails :=
  { success := true,
    data := { block_timestamp := 2000, tokenTransfers := [],
              erc20Transfers := [{ value := "100" }] } }

/-- A well-formed 64-hex-character EVM transaction hash. -/
def hashA64 : String := ⟨'0' :: 'x' :: List.replicate 64 'a'⟩

/-- A pending BSC deposit created by `createDepositRequest` of
`deposit.service.ts` (hash recorded at creation). -/
def dPendingBsc : Deposit :=
  { id := 3, userId := "bob", network := 1, depositAmount := "100",
    status := DepositStatus.pending, transactionHash := some hashA64,
    depositAddress := "0xa084c81b62ea7210b8229bfc41f6cfdb9825258a",
    requestTimestamp := 0, verificationTimestamp := none,
    platformTokenAmount := "0" }

/-- A pending ETH deposit claiming the amount string `"-0"` (which
`parseFloat` turns into the IEEE negative zero). -/
def dPendingNegZero : Deposit :=
  { id := 4, userId := "dave", network := 0, depositAmount := "-0",
    status := DepositStatus.pending, transactionHash := none,
    depositAddress := "0x4B56723cF326a1f922E3F83e5D3bD9114608Bd05",
    requestTimestamp := 0, verificationTimestamp := none,
    platformTokenAmount := "0" }

/-- A successful fetched transaction carrying an ERC-20 transfer of 5. -/
def tdFive : TxDetails :=
  { success := true,
    data := { block_timestamp := 100, tokenTransfers := [],
              erc20Transfers := [{ value := "5" }] } }

/-- A TON transaction with a native value of 5 nanotons, a comment without
any USDT mention, and a source address from `knownJettonWallets`. -/
def tonKnownSrcTx : TonTx :=
  { inMessage := some
      { info := some
          { src := some "EQCcLAW537KnRoJop1rAUrC_Mkz9FYV2wT_jzUuHq0YTf2IA",
            dest := some "EQDdest", valueCoins := some 5 },
        body := some { comment := some "hello", text := none } },
    outMessages := [], totalFeesCoins := none, balanceChange := none,
    description := none }

/-- A TON transaction whose inbound comment mentions USDT without any
number, with no parsed value. -/
def tonUsdtCommentTx : TonTx :=
  { inMessage := some
      { info := some
          { src := some "EQDsomeSrc", dest := some "EQDsomeDest",
            valueCoins := none },
        body := some { comment := some "USDT deposit", text := none } },
    outMessages := [], totalFeesCoins := none, balanceChange := none,
    description := none }

/-! ### Helper lemmas about the deposit store -/

theorem find?_decomp {p : Deposit → Bool} {l : List Deposit} {d : Deposit}
    (h : l.find? p = some d) :
    ∃ l1 l2, l = l1 ++ d :: l2 ∧ (∀ x ∈ l1, p x = false) ∧ p d = true := by
  induction l with
  | nil => simp [List.find?] at h
  | cons a t ih =>
      by_cases hp : p a
      · rw [List.find?_cons_of_pos _ hp] at h
        injection h with h
        subst h
        exact ⟨[], t, by simp, by simp, hp⟩
      · rw [List.find?_cons_of_neg _ (by simpa using hp)] at h
        obtain ⟨l1, l2, hEq, hAll, hd⟩ := ih h
        exact ⟨a :: l1, l2, by simp [hEq], by
          intro x hx
          rcases List.mem_cons.mp hx with rfl | hx
          · simpa using hp
          · exact hAll x hx, hd⟩

theorem replaceFirst_append {p : Deposit → Bool} {f : Deposit → Deposit}
    {l1 l2 : List Deposit} {d : Deposit}
    (h1 : ∀ x ∈ l1, p x = false) (hd : p d = true) :
    replaceFirst p f (l1 ++ d :: l2) = l1 ++ f d :: l2 := by
  induction l1 with
  | nil => simp [replaceFirst, hd]
  | cons a t ih =>
      have ha : p a = false := h1 a (by simp)
      simp only [List.cons_append, replaceFirst, ha, Bool.false_eq_true,
        if_false, List.cons.injEq, true_and]
      exact ih (fun x hx => h1 x (by simp [hx]))

theorem replaceFirst_getElem?_of_neg {p : Deposit → Bool} {f : Deposit → Deposit}
    {l : List Deposit} {i : ℕ} {x : Deposit}
    (hx : l[i]? = some x) (hpx : p x = false) :
    (replaceFirst p f l)[i]? = some x := by
  induction l generalizing i with
  | nil => simp at hx
  | cons a t ih =>
      cases i with
      | zero =>
          simp only [List.getElem?_cons_zero, Option.some.injEq] at hx
          subst hx
          simp [replaceFirst, hpx]
      | succ n =>
          simp only [List.getElem?_cons_succ] at hx
          by_cases hp : p a
          · simp [replaceFirst, hp, hx]
          · simp [replaceFirst, hp, ih hx]

/-! ### Evaluation lemmas for parsing and `verifyDeposit` branches -/

theorem takeWhile_of_all {p : Char → Bool} {l : List Char}
    (h : l.all p = true) : l.takeWhile p = l := by
  induction l with
  | nil => rfl
  | cons a t ih =>
      rw [List.all_cons, Bool.and_eq_true] at h
      simp [List.takeWhile_cons, h.1, ih h.2]

theorem dropWhile_of_all {p : Char → Bool} {l : List Char}
    (h : l.all p = true) : l.dropWhile p = [] := by
  induction l with
  | nil => rfl
  | cons a t ih =>
      rw [List.all_cons, Bool.and_eq_true] at h
      simp [List.dropWhile_cons, h.1, ih h.2]

/-- `parseFloat` on a nonempty all-digit string is the exact integer it
denotes. -/
theorem parseFloat_of_digits {s : String} (hne : s.data ≠ [])
    (hall : s.data.all isDigitChar = true) :
    parseFloat s = JsNum.num (digitsToNat s.data) := by
  unfold parseFloat
  cases hd : s.data with
  | nil => exact absurd hd hne
  | cons c rest =>
      rw [hd] at hall
      have hcdig : isDigitChar c = true := by
        rw [List.all_cons, Bool.and_eq_true] at hall
        exact hall.1
      have hcm : (c == '-') = false := by
        cases hcc : c == '-' with
        | false => rfl
        | true =>
            rw [beq_iff_eq.mp hcc] at hcdig
            exact absurd hcdig (by decide)
      have hcp : (c == '+') = false := by
        cases hcc : c == '+' with
        | false => rfl
        | true =>
            rw [beq_iff_eq.mp hcc] at hcdig
            exact absurd hcdig (by decide)
      simp only [hcm, hcp, Bool.false_eq_true, if_false]
      simp only [takeWhile_of_all hall, dropWhile_of_all hall]
      norm_num [digitsToNat]
      intro h
      exact absurd h (by simp)

/-- The integer value of `"100"`. -/
theorem parseFloat_100 : parseFloat "100" = JsNum.num 100 := by
  rw [parseFloat_of_digits (by decide) (by decide)]
  norm_num [show digitsToNat "100".data = 100 by decide]

/-- The integer value of `"5"`. -/
theorem parseFloat_5 : parseFloat "5" = JsNum.num 5 := by
  rw [parseFloat_of_digits (by decide) (by decide)]
  norm_num [show digitsToNat "5".data = 5 by decide]

/-- The string `"0"` parses to the (positive) zero. -/
theorem parseFloat_zero : parseFloat "0" = JsNum.num 0 := by
  rw [parseFloat_of_digits (by decide) (by decide)]
  norm_num [show digitsToNat "0".data = 0 by decide]

/-- The string `"-0"` parses to the IEEE negative zero, exactly as the JS
`parseFloat` produces it. -/
theorem parseFloat_neg0 : parseFloat "-0" = JsNum.negZero := by
  unfold parseFloat
  rw [show ("-0").data = '-' :: ['0'] from rfl]
  dsimp only
  rw [show ('-' == '-') = true from rfl, if_pos rfl]
  rw [show (['0'].takeWhile isDigitChar) = ['0'] from rfl,
    show (['0'].dropWhile isDigitChar) = ([] : List Char) from rfl]
  norm_num [digitsToNat, digitVal]
  intro h
  exact absurd (by decide) h

/-- An exactly matching positive amount is never a mismatch. -/
theorem amountMismatch_self (q : ℚ) (hq : 0 < q) :
    amountMismatch (JsNum.num q) (JsNum.num q) = false := by
  norm_num [amountMismatch, JsNum.sub, JsNum.abs, JsNum.div, JsNum.mul,
    JsNum.gt, hq.ne', hq.not_lt]

/-- `verifyDeposit` when no pending deposit matches. -/
theorem verifyDeposit_no_match {store : List Deposit}
    {userId transactionHash : String} {network : ℕ} {amount : String}
    {details : Option TxDetails} {now : ℤ}
    (hfind : store.find? (depositMatches userId network amount) = none) :
    verifyDeposit store userId transactionHash network amount details now =
      ({ success := false, message := "No matching deposit request found",
         depositId := none, amount := none, expected := none, actual := none },
       store) := by
  unfold verifyDeposit
  rw [hfind]

/-- `verifyDeposit` when every check passes: the deposit is confirmed in
place (all fields other than status, hash and `verificationTimestamp` are
kept, in particular `platformTokenAmount`), and the response repeats the
extracted transferred amount. -/
theorem verifyDeposit_confirmed_run {store : List Deposit}
    {userId transactionHash : String} {network : ℕ} {amount : String}
    {td : TxDetails} {now : ℤ} {d : Deposit}
    (hfind : store.find? (depositMatches userId network amount) = some d)
    (hsuccess : td.success = true)
    (hts : ¬ td.data.block_timestamp < d.requestTimestamp)
    (hmm : amountMismatch (parseFloat amount)
      (parseFloat (extractTransferredAmount network td)) = false) :
    verifyDeposit store userId transactionHash network amount (some td) now =
      ({ success := true, message := "Deposit verified successfully",
         depositId := some d.id,
         amount := some (extractTransferredAmount network td),
         expected := none, actual := none },
       replaceFirst (depositMatches userId network amount)
         (fun x => { x with status := DepositStatus.confirmed,
                            transactionHash := some transactionHash,
                            verificationTimestamp := some now }) store) := by
  unfold verifyDeposit
  rw [hfind]
  simp [hsuccess, hts, hmm]

/-! ### Claims -/

/-- C3: for every claimed amount `c > 0` and actual transferred amount `a`,
the amount check of `verifyDeposit` succeeds (no mismatch) if and only if
`|c - a| / c * 100 ≤ 2`; with `c = 100`, every `a` in `[98, 102]` matches
(the 2% boundary is inclusive) while `a = 97.9` and `a = 102.1` are
mismatches. -/
theorem claim_C3_tolerance_rule :
    (∀ c a : ℚ, 0 < c →
      (amountMismatch (JsNum.num c) (JsNum.num a) = false ↔ |c - a| / c * 100 ≤ 2)) ∧
    (∀ a : ℚ, 98 ≤ a → a ≤ 102 →
      amountMismatch (JsNum.num 100) (JsNum.num a) = false) ∧
    amountMismatch (JsNum.num 100) (JsNum.num (979 / 10)) = true ∧
    amountMismatch (JsNum.num 100) (JsNum.num (1021 / 10)) = true := by
  have key : ∀ c a : ℚ, 0 < c →
      (amountMismatch (JsNum.num c) (JsNum.num a) = false ↔ |c - a| / c * 100 ≤ 2) := by
    intro c a hc
    have hd : JsNum.div (JsNum.abs (JsNum.sub (JsNum.num c) (JsNum.num a)))
        (JsNum.num c) = JsNum.num (|c - a| / c) := by
      simp only [JsNum.sub, JsNum.abs, JsNum.div]
      rw [if_neg hc.ne', if_neg]
      rintro ⟨-, hlt⟩
      exact absurd hlt hc.not_lt
    have hnn : ¬ (|c - a| / c < 0) := (div_nonneg (abs_nonneg _) hc.le).not_lt
    have hm : JsNum.mul (JsNum.num (|c - a| / c)) (JsNum.num 100) =
        JsNum.num (|c - a| / c * 100) := by
      simp only [JsNum.mul]
      rw [if_neg]
      rintro ⟨-, h | h⟩
      · exact hnn h
      · norm_num at h
    unfold amountMismatch
    rw [hd, hm]
    simp only [JsNum.gt, decide_eq_false_iff_not, not_lt]
  refine ⟨key, ?_,
    by norm_num [amountMismatch, JsNum.sub, JsNum.abs, JsNum.div, JsNum.mul,
      JsNum.gt, lt_abs, abs_lt],
    by norm_num [amountMismatch, JsNum.sub, JsNum.abs, JsNum.div, JsNum.mul,
      JsNum.gt, lt_abs, abs_lt]⟩
  intro a h1 h2
  rw [key 100 a (by norm_num), div_mul_cancel₀ _ (by norm_num : (100 : ℚ) ≠ 0),
    abs_le]
  constructor <;> linarith

/-- Witness for C3: at claimed 100 and actual 98, the claimed amount is
positive and the check matches. -/
theorem claim_C3_tolerance_rule_witness :
    (0 : ℚ) < 100 ∧ amountMismatch (JsNum.num 100) (JsNum.num 98) = false :=
  ⟨by norm_num,
   (claim_C3_tolerance_rule.1 100 98 (by norm_num)).mpr (by
     rw [show |(100 : ℚ) - 98| = 2 by norm_num]
     norm_num)⟩

/-- C9 counterexample: the claimed amount string `"-0"` parses to the IEEE
negative zero, which equals 0 in JS, yet the percentage-difference check
matches the nonzero actual 5 — `|(-0) - 5| / (-0) * 100` is `-Infinity`,
which is not `> 2` — and the full `verifyDeposit` pipeline CONFIRMS the
deposit, refuting "never causes the check to succeed for a nonzero actual
when claimed is 0". -/
theorem claim_C9_zero_claimed_counterexample :
    (parseFloat "-0").eqZero = true ∧
    amountMismatch (parseFloat "-0") (parseFloat "5") = false ∧
    (verifyDeposit [dPendingNegZero] "dave" "0xf0" 0 "-0" (some tdFive) 7000).1.success
      = true ∧
    (verifyDeposit [dPendingNegZero] "dave" "0xf0" 0 "-0" (some tdFive) 7000).2 =
      [{ dPendingNegZero with
            status := DepositStatus.confirmed,
            transactionHash := some "0xf0",
            verificationTimestamp := some 7000 }] := by
  have hmm : amountMismatch (parseFloat "-0") (parseFloat "5") = false := by
    rw [parseFloat_neg0, parseFloat_5]
    norm_num [amountMismatch, JsNum.sub, JsNum.abs, JsNum.div, JsNum.mul,
      JsNum.gt]
  have hmm' : amountMismatch (parseFloat "-0")
      (parseFloat (extractTransferredAmount 0 tdFive)) = false := by
    rw [show extractTransferredAmount 0 tdFive = "5" from rfl]
    exact hmm
  have h := @verifyDeposit_confirmed_run [dPendingNegZero] "dave" "0xf0" 0 "-0"
    tdFive 7000 dPendingNegZero rfl rfl (by decide) hmm'
  exact ⟨by rw [parseFloat_neg0]; rfl, hmm, by rw [h], by rw [h]; rfl⟩

/-- C9 amended: when the claimed amount parses to the positive zero (the
string `"0"`), the check matches exactly the zero actual — the division
by zero yields Infinity for nonzero actuals and NaN for 0/0, so no nonzero
actual passes; but when the claimed amount parses to the IEEE negative
zero (the string `"-0"`), the division yields `-Infinity` (or NaN), which
is never `> 2`, so every actual — zero or not — passes the check. -/
theorem claim_C9_signed_zero_guard (a : ℚ) :
    (amountMismatch (parseFloat "0") (JsNum.num a) = false ↔ a = 0) ∧
    amountMismatch (parseFloat "-0") (JsNum.num a) = false := by
  constructor
  · rw [parseFloat_zero]
    by_cases h : a = 0
    · subst h
      norm_num [amountMismatch, JsNum.sub, JsNum.abs, JsNum.div, JsNum.mul,
        JsNum.gt]
    · have h2 : (0 : ℚ) < |(-a : ℚ)| := abs_pos.mpr (neg_ne_zero.mpr h)
      norm_num [amountMismatch, JsNum.sub, JsNum.abs, JsNum.div, JsNum.mul,
        JsNum.gt, zero_sub, h, h2.ne', h2]
  · rw [parseFloat_neg0]
    by_cases h : a = 0
    · subst h
      norm_num [amountMismatch, JsNum.sub, JsNum.abs, JsNum.div, JsNum.mul,
        JsNum.gt]
    · have h2 : (0 : ℚ) < |(-a : ℚ)| := abs_pos.mpr (neg_ne_zero.mpr h)
      norm_num [amountMismatch, JsNum.sub, JsNum.abs, JsNum.div, JsNum.mul,
        JsNum.gt, h, h2.ne', h2]

/-- C7: with the permissive development flag off, `isValidTransactionHash`
accepts a hash for ETHEREUM and BSC exactly when it is `0x` plus 64 hex
characters, and for SOLANA exactly when it is a Base58 string of length
43-44; consequently any single-character mutation that breaks the pattern
is rejected. -/
theorem claim_C7_hash_format_iff (s : String) :
    (isValidTransactionHash false s NetworkType.ETHEREUM = true ↔
      specEvmHashFormat s) ∧
    (isValidTransactionHash false s NetworkType.BSC = true ↔
      specEvmHashFormat s) ∧
    (isValidTransactionHash false s NetworkType.SOLANA = true ↔
      specSolanaHashFormat s) := by
  have hempty : (s == "") = true ↔ s.data = [] := by
    constructor
    · intro h
      have : s = "" := by exact_mod_cast (beq_iff_eq.mp h)
      simp [this]
    · intro h
      have : s = "" := by
        cases s with
        | mk data => simp_all
      simp [this]
  have hevm : evmHashMatch s = true ↔ specEvmHashFormat s := by
    unfold evmHashMatch specEvmHashFormat
    cases hl : s.data with
    | nil => simp [hl]
    | cons a t =>
        cases t with
        | nil => simp [hl]
        | cons b rest =>
            simp only [hl, List.length_cons, List.take, List.drop,
              Bool.and_eq_true, beq_iff_eq, List.all_eq_true,
              List.cons.injEq, and_true]
            constructor <;> intro h <;> simp_all
  have hsol : solanaHashMatch s = true ↔ specSolanaHashFormat s := by
    unfold solanaHashMatch specSolanaHashFormat
    simp [List.all_eq_true]
  refine ⟨?_, ?_, ?_⟩
  · unfold isValidTransactionHash
    by_cases hs : (s == "") = true
    · have hd := hempty.mp hs
      simp only [hs]
      simp [hevm.symm, evmHashMatch, hd]
    · simp only [Bool.not_eq_true] at hs
      simp [isValidTransactionHash, hs, NetworkType.ETHEREUM, hevm]
  · by_cases hs : (s == "") = true
    · have hd := hempty.mp hs
      simp only [isValidTransactionHash, hs]
      simp [hevm.symm, evmHashMatch, hd]
    · simp only [Bool.not_eq_true] at hs
      simp [isValidTransactionHash, hs, NetworkType.BSC, NetworkType.ETHEREUM,
        hevm]
  · by_cases hs : (s == "") = true
    · have hd := hempty.mp hs
      simp only [isValidTransactionHash, hs]
      simp [hsol.symm, solanaHashMatch, hd]
    · simp only [Bool.not_eq_true] at hs
      simp [isValidTransactionHash, hs, NetworkType.SOLANA, NetworkType.BSC,
        NetworkType.ETHEREUM, hsol]

/-- C4: whenever a pending deposit is found and the fetched transaction is
successful but its block timestamp is strictly earlier than the deposit's
`requestTimestamp`, `verifyDeposit` rejects: the response fails with the
"occurred before" message and the matched deposit's status becomes
REJECTED — no assumption on the amounts is needed, so the amount check is
irrelevant and such a transaction is never confirmed. -/
theorem claim_C4_temporal_guard (store : List Deposit)
    (userId transactionHash : String) (network : ℕ) (amount : String)
    (td : TxDetails) (now : ℤ) (d : Deposit)
    (hfind : store.find? (depositMatches userId network amount) = some d)
    (hsuccess : td.success = true)
    (hts : td.data.block_timestamp < d.requestTimestamp) :
    (verifyDeposit store userId transactionHash network amount (some td) now).1.success
      = false ∧
    (verifyDeposit store userId transactionHash network amount (some td) now).1.message
      = "Transaction occurred before deposit request" ∧
    ∃ l1 l2, store = l1 ++ d :: l2 ∧
      (verifyDeposit store userId transactionHash network amount (some td) now).2 =
        l1 ++ { d with status := DepositStatus.rejected,
                       transactionHash := some transactionHash } :: l2 := by
  obtain ⟨l1, l2, hEq, hAll, hd⟩ := find?_decomp hfind
  have hrw : verifyDeposit store userId transactionHash network amount (some td) now =
      ({ success := false, message := "Transaction occurred before deposit request",
         depositId := none, amount := none, expected := none, actual := none },
       replaceFirst (depositMatches userId network amount)
         (fun x => { x with status := DepositStatus.rejected,
                            transactionHash := some transactionHash }) store) := by
    unfold verifyDeposit
    rw [hfind]
    simp [hsuccess, hts]
  refine ⟨by rw [hrw], by rw [hrw], l1, l2, hEq, ?_⟩
  rw [hrw, hEq, replaceFirst_append hAll hd]

/-- Witness for C4: the concrete pending deposit, a successful transaction
mined before the request, and the rejected outcome. -/
theorem claim_C4_temporal_guard_witness :
    ([dPendingEth].find? (depositMatches "alice" 0 "100") = some dPendingEth) ∧
    tdEarly.success = true ∧
    tdEarly.data.block_timestamp < dPendingEth.requestTimestamp ∧
    (verifyDeposit [dPendingEth] "alice" "0xbeef" 0 "100" (some tdEarly) 3000).1.success
      = false :=
  ⟨by rfl, by rfl, by decide,
   (claim_C4_temporal_guard [dPendingEth] "alice" "0xbeef" 0 "100" tdEarly 3000
     dPendingEth (by rfl) (by rfl) (by decide)).1⟩

/-- A terminal status never matches the PENDING-only `findOne` filter. -/
theorem depositMatches_eq_false_of_terminal {u : String} {n : ℕ} {a : String}
    {x : Deposit} (hx : x.status.isTerminal = true) :
    depositMatches u n a x = false := by
  cases hst : x.status with
  | pending => rw [hst] at hx; simp [DepositStatus.isTerminal] at hx
  | verifying => rw [hst] at hx; simp [DepositStatus.isTerminal] at hx
  | confirmed => simp [depositMatches, hst]
  | rejected => simp [depositMatches, hst]
  | failed => simp [depositMatches, hst]

/-- C2 counterexample: `updateDepositWithTransaction` moves a CONFIRMED
(terminal) deposit back to VERIFYING, so the claim that every engine
operation leaves terminal statuses unchanged is false. -/
theorem claim_C2_terminal_states_counterexample :
    dConfirmedEth.status = DepositStatus.confirmed ∧
    (updateDepositWithTransaction [dConfirmedEth] 2 "0xnew").map
      (fun r => r.1.status) = some DepositStatus.verifying ∧
    DepositStatus.verifying ≠ DepositStatus.confirmed := by
  refine ⟨rfl, by rfl, by decide⟩

/-- C2 amended: `verifyDeposit` never changes a deposit whose status is
terminal (its `findOne` filter only matches PENDING deposits), but
`updateDepositWithTransaction` unconditionally forces the status of the
deposit it finds to VERIFYING, whatever it was before. -/
theorem claim_C2_terminal_preservation :
    (∀ (store : List Deposit) (userId transactionHash : String) (network : ℕ)
       (amount : String) (details : Option TxDetails) (now : ℤ) (i : ℕ)
       (x : Deposit),
      store[i]? = some x → x.status.isTerminal = true →
      ((verifyDeposit store userId transactionHash network amount details now).2)[i]?
        = some x) ∧
    (∀ (store : List Deposit) (depositId : ℕ) (transactionHash : String)
       (d : Deposit) (s : List Deposit),
      updateDepositWithTransaction store depositId transactionHash = some (d, s) →
      d.status = DepositStatus.verifying) := by
  constructor
  · intro store userId transactionHash network amount details now i x hx hterm
    have hpx := depositMatches_eq_false_of_terminal
      (u := userId) (n := network) (a := amount) hterm
    unfold verifyDeposit
    cases hf : store.find? (depositMatches userId network amount) with
    | none => simpa using hx
    | some d =>
        cases details with
        | none => simpa using hx
        | some td =>
            dsimp only
            split
            · simpa using hx
            · split
              · exact replaceFirst_getElem?_of_neg hx hpx
              · split
                · exact replaceFirst_getElem?_of_neg hx hpx
                · exact replaceFirst_getElem?_of_neg hx hpx
  · intro store depositId transactionHash d s h
    unfold updateDepositWithTransaction at h
    cases hf : store.find? (fun x => x.id == depositId) with
    | none => rw [hf] at h; cases h
    | some dep =>
        rw [hf] at h
        injection h with h
        have h1 := congrArg Prod.fst h
        dsimp at h1
        rw [← h1]

/-- Witness for C2 (amended): the confirmed deposit is untouched by a
concrete `verifyDeposit` call. -/
theorem claim_C2_terminal_preservation_witness :
    ([dConfirmedEth][0]? = some dConfirmedEth) ∧
    dConfirmedEth.status.isTerminal = true ∧
    ((verifyDeposit [dConfirmedEth] "carol" "0xzz" 0 "50" none 9).2)[0]?
      = some dConfirmedEth :=
  ⟨rfl, rfl,
   claim_C2_terminal_preservation.1 [dConfirmedEth] "carol" "0xzz" 0 "50"
     none 9 0 dConfirmedEth rfl rfl⟩

/-- C6 counterexample: a provider-level "not found" outcome (fetch summary
with `success:false`) makes `verifyTransaction` return `false`, and
`startVerificationProcess` then marks the deposit FAILED — a terminal
state — contradicting the claim that such deposits are never moved to a
terminal state. -/
theorem claim_C6_retryable_counterexample :
    (verifyTransaction [] hashA64 "100" 1 false false
      (some { success := false, value := none })).1 = false ∧
    startVerificationProcess [dPendingBsc] 3 "100"
      (verifyTransaction [] hashA64 "100" 1 false false
        (some { success := false, value := none })).1 5000 =
      [{ dPendingBsc with status := DepositStatus.failed }] ∧
    DepositStatus.failed.isTerminal = true := by
  exact ⟨rfl, rfl, rfl⟩

/-- C6 amended: `depositVerificationService.verifyDeposit` indeed leaves
the deposit store untouched (the matched deposit stays PENDING, retryable)
when transaction details are absent or unsuccessful; but the other
pipeline, `startVerificationProcess`, marks the deposit FAILED (terminal)
whenever verification does not succeed, including provider-level
failures. -/
theorem claim_C6_retryable_nonterminal :
    (∀ (store : List Deposit) (userId transactionHash : String) (network : ℕ)
       (amount : String) (now : ℤ),
      (verifyDeposit store userId transactionHash network amount none now).1.success
        = false ∧
      (verifyDeposit store userId transactionHash network amount none now).2
        = store) ∧
    (∀ (store : List Deposit) (userId transactionHash : String) (network : ℕ)
       (amount : String) (td : TxDetails) (now : ℤ),
      td.success = false →
      (verifyDeposit store userId transactionHash network amount (some td) now).1.success
        = false ∧
      (verifyDeposit store userId transactionHash network amount (some td) now).2
        = store) ∧
    (∀ (store : List Deposit) (depositId : ℕ) (amount : String) (now : ℤ)
       (d : Deposit),
      store.find? (fun x => x.id == depositId) = some d →
      ∃ l1 l2, store = l1 ++ d :: l2 ∧
        startVerificationProcess store depositId amount false now =
          l1 ++ { d with status := DepositStatus.failed } :: l2) := by
  refine ⟨?_, ?_, ?_⟩
  · intro store userId transactionHash network amount now
    unfold verifyDeposit
    cases hf : store.find? (depositMatches userId network amount) <;> simp
  · intro store userId transactionHash network amount td now hsucc
    unfold verifyDeposit
    cases hf : store.find? (depositMatches userId network amount) <;> simp [hsucc]
  · intro store depositId amount now d hfind
    obtain ⟨l1, l2, hEq, hAll, hd⟩ := find?_decomp hfind
    refine ⟨l1, l2, hEq, ?_⟩
    unfold startVerificationProcess
    rw [hEq, replaceFirst_append hAll hd]
    simp only [Bool.false_eq_true, if_false]
    rw [replaceFirst_append hAll
      (d := { d with status := DepositStatus.verifying }) hd]

/-- Witness for C6 (amended): a concrete unsuccessful fetch leaves the
store unchanged, and a concrete failed verification marks the deposit
FAILED. -/
theorem claim_C6_retryable_nonterminal_witness :
    ((verifyDeposit [dPendingBsc] "bob" hashA64 1 "100"
        (some { success := false,
                data := { block_timestamp := 0, tokenTransfers := [],
                          erc20Transfers := [] } }) 5).2 = [dPendingBsc]) ∧
    (∃ l1 l2, [dPendingBsc] = l1 ++ dPendingBsc :: l2 ∧
      startVerificationProcess [dPendingBsc] 3 "100" false 5000 =
        l1 ++ { dPendingBsc with status := DepositStatus.failed } :: l2) :=
  ⟨(claim_C6_retryable_nonterminal.2.1 [dPendingBsc] "bob" hashA64 1 "100"
      { success := false,
        data := { block_timestamp := 0, tokenTransfers := [],
                  erc20Transfers := [] } } 5 rfl).2,
   claim_C6_retryable_nonterminal.2.2 [dPendingBsc] 3 "100" 5000 dPendingBsc rfl⟩

/-- C1 counterexample: a fully passing verification (claimed `"100"`,
actual ERC-20 value decoding to exactly 100, timestamp after the request)
sets CONFIRMED and the verification timestamp, but `verifyDeposit` never
writes `platformTokenAmount`: it stays at its prior value `"0"`, not
`"100"` as the claim asserts. -/
theorem claim_C1_platform_amount_counterexample :
    (verifyDeposit [dPendingEth] "alice" "0xcc" 0 "100" (some tdExact) 3000).1.success
      = true ∧
    (verifyDeposit [dPendingEth] "alice" "0xcc" 0 "100" (some tdExact) 3000).2 =
      [{ dPendingEth with
            status := DepositStatus.confirmed,
            transactionHash := some "0xcc",
            verificationTimestamp := some 3000 }] ∧
    ({ dPendingEth with
          status := DepositStatus.confirmed,
          transactionHash := some "0xcc",
          verificationTimestamp := some 3000 } : Deposit).platformTokenAmount
      = "0" ∧
    ("0" : String) ≠ "100" := by
  have hmm : amountMismatch (parseFloat "100")
      (parseFloat (extractTransferredAmount 0 tdExact)) = false := by
    rw [show extractTransferredAmount 0 tdExact = "100" from rfl, parseFloat_100]
    exact amountMismatch_self 100 (by norm_num)
  have h := @verifyDeposit_confirmed_run [dPendingEth] "alice" "0xcc" 0 "100"
    tdExact 3000 dPendingEth rfl rfl (by decide) hmm
  exact ⟨by rw [h], by rw [h]; rfl, rfl, by decide⟩

/-- C1 amended: when all checks pass, `verifyDeposit` sets CONFIRMED, the
transaction hash and `verificationTimestamp`, and returns the actual
transferred amount in its response, but leaves the stored
`platformTokenAmount` unchanged; the crediting of `platformTokenAmount`
happens only in `startVerificationProcess`, which stores the claimed
amount (1:1 with the claim, not with the on-chain actual). -/
theorem claim_C1_confirmation_behavior :
    (∀ (store : List Deposit) (userId transactionHash : String) (network : ℕ)
       (amount : String) (td : TxDetails) (now : ℤ) (d : Deposit),
      store.find? (depositMatches userId network amount) = some d →
      td.success = true →
      ¬ td.data.block_timestamp < d.requestTimestamp →
      amountMismatch (parseFloat amount)
        (parseFloat (extractTransferredAmount network td)) = false →
      (verifyDeposit store userId transactionHash network amount (some td) now).1.success
        = true ∧
      (verifyDeposit store userId transactionHash network amount (some td) now).1.amount
        = some (extractTransferredAmount network td) ∧
      ∃ l1 l2, store = l1 ++ d :: l2 ∧
        (verifyDeposit store userId transactionHash network amount (some td) now).2 =
          l1 ++ { d with status := DepositStatus.confirmed,
                         transactionHash := some transactionHash,
                         verificationTimestamp := some now } :: l2) ∧
    (∀ (store : List Deposit) (depositId : ℕ) (amount : String) (now : ℤ)
       (d : Deposit),
      store.find? (fun x => x.id == depositId) = some d →
      ∃ l1 l2, store = l1 ++ d :: l2 ∧
        startVerificationProcess store depositId amount true now =
          l1 ++ { d with status := DepositStatus.confirmed,
                         platformTokenAmount := amount,
                         verificationTimestamp := some now } :: l2) := by
  constructor
  · intro store userId transactionHash network amount td now d hfind hsuccess hts hmm
    have h := @verifyDeposit_confirmed_run store userId transactionHash network
      amount td now d hfind hsuccess hts hmm
    obtain ⟨l1, l2, hEq, hAll, hd⟩ := find?_decomp hfind
    refine ⟨by rw [h], by rw [h], l1, l2, hEq, ?_⟩
    rw [h, hEq, replaceFirst_append hAll hd]
  · intro store depositId amount now d hfind
    obtain ⟨l1, l2, hEq, hAll, hd⟩ := find?_decomp hfind
    refine ⟨l1, l2, hEq, ?_⟩
    unfold startVerificationProcess
    rw [hEq, replaceFirst_append hAll hd]
    split
    · rw [replaceFirst_append hAll
        (d := { d with status := DepositStatus.verifying }) hd]
    · simp_all

/-- Witness for C1 (amended): the concrete passing verification and the
concrete crediting path. -/
theorem claim_C1_confirmation_behavior_witness :
    ((verifyDeposit [dPendingEth] "alice" "0xdd" 0 "100" (some tdExact) 3000).1.success
      = true) ∧
    (∃ l1 l2, [dPendingEth] = l1 ++ dPendingEth :: l2 ∧
      startVerificationProcess [dPendingEth] 1 "100" true 3000 =
        l1 ++ { dPendingEth with
                  status := DepositStatus.confirmed,
                  platformTokenAmount := "100",
                  verificationTimestamp := some 3000 } :: l2) :=
  ⟨(claim_C1_confirmation_behavior.1 [dPendingEth] "alice" "0xdd" 0 "100"
      tdExact 3000 dPendingEth rfl rfl (by decide)
      (by rw [show extractTransferredAmount 0 tdExact = "100" from rfl,
            parseFloat_100]
          exact amountMismatch_self 100 (by norm_num))).1,
   claim_C1_confirmation_behavior.2 [dPendingEth] 1 "100" 3000 dPendingEth rfl⟩

/-- The latest cache write for a hash is what the next lookup returns. -/
theorem cacheGet_cacheSet (c : VCache) (h : String) (b : Bool) :
    cacheGet (cacheSet c h b) h = some b := by
  simp [cacheGet, cacheSet]

/-- C5 counterexample: `depositVerificationService.verifyDeposit` has no
verification cache; after a first call confirms the deposit, an identical
second call finds no PENDING deposit and answers "No matching deposit
request found" — not the same terminal outcome as the first call. -/
theorem claim_C5_idempotence_counterexample :
    (verifyDeposit [dPendingEth] "alice" "0xee" 0 "100" (some tdExact) 3000).1.success
      = true ∧
    (verifyDeposit (verifyDeposit [dPendingEth] "alice" "0xee" 0 "100"
        (some tdExact) 3000).2 "alice" "0xee" 0 "100" (some tdExact) 4000).1.success
      = false ∧
    (verifyDeposit (verifyDeposit [dPendingEth] "alice" "0xee" 0 "100"
        (some tdExact) 3000).2 "alice" "0xee" 0 "100" (some tdExact) 4000).1.message
      = "No matching deposit request found" := by
  have hmm : amountMismatch (parseFloat "100")
      (parseFloat (extractTransferredAmount 0 tdExact)) = false := by
    rw [show extractTransferredAmount 0 tdExact = "100" from rfl, parseFloat_100]
    exact amountMismatch_self 100 (by norm_num)
  have h1 := @verifyDeposit_confirmed_run [dPendingEth] "alice" "0xee" 0 "100"
    tdExact 3000 dPendingEth rfl rfl (by decide) hmm
  have h2 : (verifyDeposit [dPendingEth] "alice" "0xee" 0 "100" (some tdExact)
      3000).2.find? (depositMatches "alice" 0 "100") = none := by
    rw [h1]
    rfl
  refine ⟨by rw [h1], ?_, ?_⟩
  · rw [verifyDeposit_no_match h2]
  · rw [verifyDeposit_no_match h2]

/-- C5 amended: the verification cache lives in
`transactionVerificationService.verifyTransaction`: a second call with the
same hash returns exactly the first call's boolean outcome, leaves the
cache unchanged, and never invokes the chain adapter (the cache hit
short-circuits it).  `verifyDeposit` itself, after a terminal outcome, no
longer finds a PENDING deposit and fails without calling the adapter. -/
theorem claim_C5_cache_idempotence (c : VCache) (txHash amount : String)
    (network : ℕ) (devMode skipFlag : Bool) (adapter : Option TxSummary) :
    verifyTransaction
      ((verifyTransaction c txHash amount network devMode skipFlag adapter).2.1)
      txHash amount network devMode skipFlag adapter =
    ((verifyTransaction c txHash amount network devMode skipFlag adapter).1,
     (verifyTransaction c txHash amount network devMode skipFlag adapter).2.1,
     false) := by
  unfold verifyTransaction
  cases hg : cacheGet c txHash with
  | some b => simp [hg]
  | none =>
      by_cases hv : isValidTransactionHash devMode txHash network
      · by_cases hskip : skipFlag
        · simp [hg, hv, hskip, cacheGet_cacheSet]
        · simp [hg, hv, hskip, cacheGet_cacheSet]
      · simp [hg, hv, cacheGet_cacheSet]

/-- A source or destination in `knownJettonWallets` always makes the
metadata fallback report a USDT transfer of the constant `'10'`. -/
theorem detectMetadata_known_wallet {tx : TonTx}
    (hk : tonSrc tx ∈ knownJettonWallets ∨ tonDest tx ∈ knownJettonWallets) :
    ∃ t ∈ detectJettonTransfersFromMetadata tx,
      t.tokenName = "USDT" ∧ t.value = "10" := by
  unfold detectJettonTransfersFromMetadata
  by_cases h0 :
      (tonSrc tx == "UQA4P3jvl_SKKFHlNMICwqNJEGdPwDpR8LUEwKg_Z-MDI2Ei") = true
  · simp only [h0, if_true]
    exact ⟨usdtEntry (tonSrc tx) (tonDest tx) "10", by simp, rfl, rfl⟩
  · rw [Bool.not_eq_true] at h0
    simp only [h0, Bool.false_eq_true, if_false]
    have hcond : (tonSrc tx ∈ knownJettonWallets ∨
        tonDest tx ∈ knownJettonWallets) := hk
    refine ⟨usdtEntry (tonSrc tx) (tonDest tx) "10", ?_, rfl, rfl⟩
    simp only [List.mem_append]
    right
    simp [hcond]

/-- C10 counterexample: a TON transaction with no recognized opcode whose
source is a known jetton wallet but which carries a nonzero native value
and a USDT-free comment produces only a native TON entry — no USDT
transfer of `'10'` at all, because the metadata fallback only runs when
the transfer list is still empty. -/
theorem claim_C10_ton_fallback_counterexample :
    (tonSrc tonKnownSrcTx ∈ knownJettonWallets) ∧
    (∀ t ∈ extractTonTokenTransfersNoOpcode tonKnownSrcTx,
      t.tokenName ≠ "USDT") := by
  constructor
  · decide
  · decide

/-- C10 amended: for a TON transaction in which no jetton opcode is
recognized, (a) whenever the transaction has an inbound message and its
comment (`inMessage.body.comment`, falling back to `tx.description`)
mentions USDT, the extracted list reports a USDT transfer with the
constant value `'10'`, independent of the amount actually transferred;
and (b) whenever nothing at all was detected (no native value, no balance
change, no USDT comment) and the source or destination is in the
hardcoded known-jetton-wallet list, the final metadata fallback likewise
reports a USDT transfer of `'10'`. -/
theorem claim_C10_ton_usdt_fallback (tx : TonTx) :
    (tx.inMessage.isSome = true →
      strIncludes (tonCommentOf tx) "USDT" = true →
      ∃ t ∈ extractTonTokenTransfersNoOpcode tx,
        t.tokenName = "USDT" ∧ t.value = "10") ∧
    (tonValueOf tx = 0 →
      (tx.balanceChange = none ∨ tx.balanceChange = some 0) →
      strIncludes (tonCommentOf tx) "USDT" = false →
      strIncludes (tonCommentOf tx) "Tether" = false →
      (tonSrc tx ∈ knownJettonWallets ∨ tonDest tx ∈ knownJettonWallets) →
      ∃ t ∈ extractTonTokenTransfersNoOpcode tx,
        t.tokenName = "USDT" ∧ t.value = "10") := by
  constructor
  · intro hin hc
    refine ⟨usdtEntry (tonSrc tx) (tonDest tx) "10", ?_, rfl, rfl⟩
    simp [extractTonTokenTransfersNoOpcode, hin, hc]
  · intro hv hb hc1 hc2 hk
    have hext : extractTonTokenTransfersNoOpcode tx =
        detectJettonTransfersFromMetadata tx := by
      unfold extractTonTokenTransfersNoOpcode
      rcases hb with hb | hb <;> simp [hv, hb, hc1, hc2]
    rw [hext]
    exact detectMetadata_known_wallet hk

/-! ### Decimal rendering round-trip (for the C8 exactness statement) -/

theorem natDigitsAux_eq : ∀ (fuel n : ℕ), n ≤ fuel →
    natDigitsAux fuel n = Nat.digits 10 n := by
  intro fuel
  induction fuel with
  | zero =>
      intro n h
      interval_cases n
      simp [natDigitsAux]
  | succ f ih =>
      intro n h
      cases n with
      | zero => simp [natDigitsAux]
      | succ m =>
          rw [natDigitsAux]
          have hdiv : (m + 1) / 10 < m + 1 :=
            Nat.div_lt_self (Nat.succ_pos m) (by norm_num)
          rw [ih ((m + 1) / 10) (by omega)]
          rw [Nat.digits_def' (by norm_num : 1 < 10) (Nat.succ_pos m)]

theorem digitVal_digitChar {d : ℕ} (h : d < 10) :
    digitVal (digitChar d) = d := by
  interval_cases d <;> decide

theorem isDigitChar_digitChar {d : ℕ} (h : d < 10) :
    isDigitChar (digitChar d) = true := by
  interval_cases d <;> decide

theorem digitsToNat_append_singleton (l : List Char) (c : Char) :
    digitsToNat (l ++ [c]) = digitsToNat l * 10 + digitVal c := by
  unfold digitsToNat
  rw [List.foldl_append]
  rfl

theorem digitsToNat_rev_map : ∀ (ds : List ℕ), (∀ d ∈ ds, d < 10) →
    digitsToNat ((ds.map digitChar).reverse) = Nat.ofDigits 10 ds := by
  intro ds h
  induction ds with
  | nil => simp [digitsToNat, Nat.ofDigits_nil]
  | cons d t ih =>
      simp only [List.map_cons, List.reverse_cons]
      rw [digitsToNat_append_singleton,
        ih (fun x hx => h x (List.mem_cons_of_mem d hx)),
        digitVal_digitChar (h d (List.mem_cons_self d t)), Nat.ofDigits_cons]
      ring

theorem digitsToNat_natToChars (n : ℕ) : digitsToNat (natToChars n) = n := by
  unfold natToChars
  by_cases h : n = 0
  · subst h; decide
  · rw [if_neg h, natDigitsAux_eq n n le_rfl,
      digitsToNat_rev_map _ (fun d hd => Nat.digits_lt_base (by norm_num) hd)]
    exact_mod_cast congrArg id (Nat.ofDigits_digits 10 n)

theorem natToChars_all_digits (n : ℕ) :
    (natToChars n).all isDigitChar = true := by
  unfold natToChars
  by_cases h : n = 0
  · subst h; decide
  · rw [if_neg h, natDigitsAux_eq n n le_rfl, List.all_eq_true]
    intro c hc
    rw [List.mem_reverse, List.mem_map] at hc
    obtain ⟨d, hd, rfl⟩ := hc
    exact isDigitChar_digitChar (Nat.digits_lt_base (by norm_num) hd)

theorem natToChars_ne_nil (n : ℕ) : natToChars n ≠ [] := by
  unfold natToChars
  by_cases h : n = 0
  · subst h; decide
  · rw [if_neg h]
    intro hcon
    rw [List.reverse_eq_nil_iff, List.map_eq_nil_iff,
      natDigitsAux_eq n n le_rfl] at hcon
    exact (Nat.digits_ne_nil_iff_ne_zero.mpr h) hcon

theorem natToChars_length_le {n k : ℕ} (hk : k ≠ 0) (h : n < 10 ^ k) :
    (natToChars n).length ≤ k := by
  unfold natToChars
  by_cases h0 : n = 0
  · subst h0; simpa using Nat.one_le_iff_ne_zero.mpr hk
  · rw [if_neg h0, natDigitsAux_eq n n le_rfl, List.length_reverse,
      List.length_map]
    rw [Nat.digits_len 10 n (by norm_num) h0]
    have := (Nat.lt_pow_iff_log_lt (by norm_num : 1 < 10) h0).mp h
    omega

theorem foldl_digits_zeros (k : ℕ) :
    List.foldl (fun n c => n * 10 + digitVal c) 0 (List.replicate k '0') = 0 := by
  induction k with
  | zero => rfl
  | succ m ih => simpa [List.replicate_succ, List.foldl_cons] using ih

theorem digitsToNat_pad (k : ℕ) (l : List Char) :
    digitsToNat (List.replicate k '0' ++ l) = digitsToNat l := by
  unfold digitsToNat
  rw [List.foldl_append, foldl_digits_zeros]

theorem foldl_digitsToNat_init (x : ℕ) (l : List Char) :
    List.foldl (fun n c => n * 10 + digitVal c) x l =
      x * 10 ^ l.length + digitsToNat l := by
  induction l generalizing x with
  | nil => simp [digitsToNat]
  | cons c t ih =>
      rw [List.foldl_cons, ih]
      have hd : digitsToNat (c :: t) = digitVal c * 10 ^ t.length + digitsToNat t := by
        unfold digitsToNat
        rw [List.foldl_cons]
        simpa using ih (0 * 10 + digitVal c)
      rw [hd, List.length_cons]
      ring

theorem digitsToNat_append_zeros (t : List Char) (k : ℕ) :
    digitsToNat (t ++ List.replicate k '0') = digitsToNat t * 10 ^ k := by
  unfold digitsToNat
  rw [List.foldl_append, foldl_digitsToNat_init,
    show digitsToNat (List.replicate k '0') = 0 from foldl_digits_zeros k,
    List.length_replicate, Nat.add_zero]

theorem takeWhile_beq_replicate (r : List Char) :
    r.takeWhile (fun c => c == '0') =
      List.replicate (r.takeWhile (fun c => c == '0')).length '0' := by
  induction r with
  | nil => rfl
  | cons x t ih =>
      rw [List.takeWhile_cons]
      by_cases hx : (x == '0') = true
      · simp only [hx, if_true, List.length_cons, List.replicate_succ]
        rw [beq_iff_eq.mp hx, ← ih]
      · simp [hx]

theorem trimTrailingZeros_decomp (l : List Char) :
    ∃ k, l = trimTrailingZeros l ++ List.replicate k '0' := by
  unfold trimTrailingZeros
  refine ⟨(l.reverse.takeWhile (fun c => c == '0')).length, ?_⟩
  conv_lhs => rw [← l.reverse_reverse,
    ← List.takeWhile_append_dropWhile (p := fun c => c == '0') (l := l.reverse)]
  rw [List.reverse_append]
  congr 1
  rw [takeWhile_beq_replicate l.reverse, List.reverse_replicate,
    List.length_replicate]

theorem takeWhile_append_stop {p : Char → Bool} {a : List Char} {c : Char}
    {r : List Char} (ha : a.all p = true) (hc : p c = false) :
    (a ++ c :: r).takeWhile p = a ∧ (a ++ c :: r).dropWhile p = c :: r := by
  induction a with
  | nil => simp [List.takeWhile_cons, List.dropWhile_cons, hc]
  | cons x t ih =>
      rw [List.all_cons, Bool.and_eq_true] at ha
      obtain ⟨ih1, ih2⟩ := ih ha.2
      simp [List.takeWhile_cons, List.dropWhile_cons, ha.1, ih1, ih2]

/-- `parseFloat` on `⟨a ++ '.' :: f⟩` with digit runs `a` and `f` is the
exact rational the decimal string denotes. -/
theorem parseFloat_decimal {a f : List Char} (hane : a ≠ [])
    (haall : a.all isDigitChar = true) (hfall : f.all isDigitChar = true) :
    parseFloat ⟨a ++ '.' :: f⟩ =
      JsNum.num ((digitsToNat a : ℚ) + (digitsToNat f : ℚ) / 10 ^ f.length) := by
  obtain ⟨hatake, hadrop⟩ :=
    takeWhile_append_stop (c := '.') (r := f) haall (by decide)
  unfold parseFloat
  cases ha : a with
  | nil => exact absurd ha hane
  | cons c t =>
      rw [ha] at haall
      have hcdig : isDigitChar c = true := by
        rw [List.all_cons, Bool.and_eq_true] at haall
        exact haall.1
      have hcm : (c == '-') = false := by
        cases hcc : c == '-' with
        | false => rfl
        | true =>
            rw [beq_iff_eq.mp hcc] at hcdig
            exact absurd hcdig (by decide)
      have hcp : (c == '+') = false := by
        cases hcc : c == '+' with
        | false => rfl
        | true =>
            rw [beq_iff_eq.mp hcc] at hcdig
            exact absurd hcdig (by decide)
      rw [ha] at hatake hadrop
      rw [List.cons_append]
      dsimp only
      rw [hcm, hcp]
      simp only [Bool.false_eq_true, if_false]
      rw [show c :: (t ++ '.' :: f) = (c :: t) ++ '.' :: f from rfl]
      simp only [hatake, hadrop, takeWhile_of_all hfall]
      simp only [show ('.' == '.') = true from rfl, if_true]
      rw [if_neg (by simp)]

theorem replicate_zeros_all_digits (n : ℕ) :
    (List.replicate n '0').all isDigitChar = true := by
  rw [List.all_eq_true]
  intro c hc
  rw [List.eq_of_mem_replicate hc]
  decide

/-- `parseFloat` undoes the decimal rendering of a natural number. -/
theorem parseFloat_natToChars (n : ℕ) :
    parseFloat ⟨natToChars n⟩ = JsNum.num n := by
  rw [parseFloat_of_digits (s := ⟨natToChars n⟩) (natToChars_ne_nil n)
    (natToChars_all_digits n)]
  rw [show ((⟨natToChars n⟩ : String)).data = natToChars n from rfl]
  rw [digitsToNat_natToChars]

/-- `calculateTokenAmount` is exact: parsing its decimal-string output
recovers precisely `v / 10 ^ dec` as a rational — the BigInt path loses no
precision. -/
theorem calculateTokenAmount_exact (v dec : ℕ) :
    parseFloat (calculateTokenAmount (⟨natToChars v⟩ : String) dec) =
      JsNum.num ((v : ℚ) / 10 ^ dec) := by
  unfold calculateTokenAmount
  cases hL : natToChars v with
  | nil => exact absurd hL (natToChars_ne_nil v)
  | cons c cs =>
      dsimp only
      rw [show (c :: cs).all isDigitChar = true from hL ▸ natToChars_all_digits v]
      simp only [if_true]
      have hval : digitsToNat (c :: cs) = v := by
        rw [← hL]
        exact digitsToNat_natToChars v
      rw [hval]
      by_cases hrem : v % 10 ^ dec = 0
      · rw [if_pos hrem]
        rw [parseFloat_natToChars]
        congr 1
        rw [Nat.cast_div (Nat.dvd_of_mod_eq_zero hrem) (by positivity)]
        push_cast
        ring
      · rw [if_neg hrem]
        have hdec0 : dec ≠ 0 := by
          intro h
          rw [h] at hrem
          simp [Nat.mod_one] at hrem
        have hRlt : v % 10 ^ dec < 10 ^ dec := Nat.mod_lt _ (by positivity)
        have hlen : (natToChars (v % 10 ^ dec)).length ≤ dec :=
          natToChars_length_le hdec0 hRlt
        have hpadlen : (padStartZeros dec (natToChars (v % 10 ^ dec))).length
            = dec := by
          unfold padStartZeros
          rw [List.length_append, List.length_replicate]
          omega
        have hpadval : digitsToNat (padStartZeros dec (natToChars (v % 10 ^ dec)))
            = v % 10 ^ dec := by
          unfold padStartZeros
          rw [digitsToNat_pad, digitsToNat_natToChars]
        have hpadall : (padStartZeros dec (natToChars (v % 10 ^ dec))).all
            isDigitChar = true := by
          unfold padStartZeros
          rw [List.all_append, Bool.and_eq_true]
          exact ⟨replicate_zeros_all_digits _, natToChars_all_digits _⟩
        obtain ⟨k, hk⟩ :=
          trimTrailingZeros_decomp (padStartZeros dec (natToChars (v % 10 ^ dec)))
        have htall : (trimTrailingZeros (padStartZeros dec
            (natToChars (v % 10 ^ dec)))).all isDigitChar = true := by
          have h := hpadall
          rw [hk, List.all_append, Bool.and_eq_true] at h
          exact h.1
        have h1 : digitsToNat (trimTrailingZeros (padStartZeros dec
            (natToChars (v % 10 ^ dec)))) * 10 ^ k = v % 10 ^ dec := by
          have h := hpadval
          rw [hk, digitsToNat_append_zeros] at h
          exact h
        have h2 : (trimTrailingZeros (padStartZeros dec
            (natToChars (v % 10 ^ dec)))).length + k = dec := by
          have h := hpadlen
          rw [hk, List.length_append, List.length_replicate] at h
          exact h
        rw [parseFloat_decimal (natToChars_ne_nil (v / 10 ^ dec))
          (natToChars_all_digits (v / 10 ^ dec)) htall]
        congr 1
        rw [digitsToNat_natToChars]
        generalize hD : digitsToNat (trimTrailingZeros (padStartZeros dec
          (natToChars (v % 10 ^ dec)))) = D at h1 ⊢
        generalize hT : (trimTrailingZeros (padStartZeros dec
          (natToChars (v % 10 ^ dec)))).length = T at h2 ⊢
        have h4 : v = v / 10 ^ dec * 10 ^ dec + D * 10 ^ k := by
          rw [h1, Nat.mul_comm]
          exact (Nat.div_add_mod v (10 ^ dec)).symm
        rw [show ((v : ℕ) : ℚ) =
            ((v / 10 ^ dec * 10 ^ dec + D * 10 ^ k : ℕ) : ℚ) from congrArg _ h4]
        push_cast
        rw [← h2, pow_add]
        have ht0 : ((10 : ℚ) ^ T) ≠ 0 := by positivity
        have hk0 : ((10 : ℚ) ^ k) ≠ 0 := by positivity
        field_simp
        ring

theorem f64normalize_step {fuel : ℕ} {q : ℚ} {e : ℤ}
    (h1 : ¬ q < 2 ^ 52) (h2 : 2 ^ 53 ≤ q) :
    f64normalize (fuel + 1) q e = f64normalize fuel (q / 2) (e + 1) := by
  rw [f64normalize, if_neg h1, if_pos h2]

theorem f64normalize_done {fuel : ℕ} {q : ℚ} {e : ℤ}
    (h1 : ¬ q < 2 ^ 52) (h2 : ¬ 2 ^ 53 ≤ q) :
    f64normalize (fuel + 1) q e = (q, e) := by
  rw [f64normalize, if_neg h1, if_neg h2]

/-- `Number(2^53)` is exactly `2^53`. -/
theorem f64round_pow53 : f64round ((2 : ℚ) ^ 53) = 2 ^ 53 := by
  unfold f64round
  rw [if_neg (by norm_num : ¬ ((2 : ℚ) ^ 53 = 0)),
    if_neg (by norm_num : ¬ ((2 : ℚ) ^ 53 < 0))]
  unfold f64roundPos
  rw [show (4200 : ℕ) = 4199 + 1 from rfl,
    f64normalize_step (by norm_num) (by norm_num),
    show (4199 : ℕ) = 4198 + 1 from rfl,
    f64normalize_done (by norm_num) (by norm_num)]
  have hfl : roundHalfEven ((2 : ℚ) ^ 53 / 2) = 2 ^ 52 := by
    unfold roundHalfEven
    have hfloor : ⌊(2 : ℚ) ^ 53 / 2⌋ = 2 ^ 52 := by
      rw [show (2 : ℚ) ^ 53 / 2 = ((2 ^ 52 : ℤ) : ℚ) by push_cast; ring]
      exact Int.floor_intCast _
    rw [hfloor]
    dsimp only
    rw [show (2 : ℚ) ^ 53 / 2 - ((2 ^ 52 : ℤ) : ℚ) = 0 by push_cast; ring]
    norm_num
  show (roundHalfEven ((2 : ℚ) ^ 53 / 2) : ℚ) * 2 ^ ((0 : ℤ) + 1) = 2 ^ 53
  rw [hfl]
  push_cast
  norm_num

/-- `Number(2^53 + 1)` rounds (ties to even) to `2^53`: one wei is lost. -/
theorem f64round_pow53_add_one : f64round ((2 : ℚ) ^ 53 + 1) = 2 ^ 53 := by
  unfold f64round
  rw [if_neg (by norm_num : ¬ ((2 : ℚ) ^ 53 + 1 = 0)),
    if_neg (by norm_num : ¬ ((2 : ℚ) ^ 53 + 1 < 0))]
  unfold f64roundPos
  rw [show (4200 : ℕ) = 4199 + 1 from rfl,
    f64normalize_step (by norm_num) (by norm_num),
    show (4199 : ℕ) = 4198 + 1 from rfl,
    f64normalize_done (by norm_num) (by norm_num)]
  have hfl : roundHalfEven (((2 : ℚ) ^ 53 + 1) / 2) = 2 ^ 52 := by
    unfold roundHalfEven
    have hfloor : ⌊((2 : ℚ) ^ 53 + 1) / 2⌋ = 2 ^ 52 := by
      rw [Int.floor_eq_iff]
      constructor
      · push_cast
        norm_num
      · push_cast
        norm_num
    rw [hfloor]
    dsimp only
    rw [show ((2 : ℚ) ^ 53 + 1) / 2 - ((2 ^ 52 : ℤ) : ℚ) = 1 / 2 by push_cast; ring]
    norm_num
  show (roundHalfEven (((2 : ℚ) ^ 53 + 1) / 2) : ℚ) * 2 ^ ((0 : ℤ) + 1) = 2 ^ 53
  rw [hfl]
  push_cast
  norm_num

/-- `hexToEther` maps the distinct wei amounts `2^53` and `2^53 + 1` to the
same ether value: the `Number(wei)` conversion collapses them. -/
theorem hexToEther_pow53_collapse :
    hexToEther "0x20000000000001" = hexToEther "0x20000000000000" := by
  unfold hexToEther
  rw [show ((bigIntOfHex "0x20000000000001" : ℕ) : ℚ) = (2 : ℚ) ^ 53 + 1 by
      rw [show bigIntOfHex "0x20000000000001" = 2 ^ 53 + 1 from by decide]
      push_cast
      norm_num]
  rw [show ((bigIntOfHex "0x20000000000000" : ℕ) : ℚ) = (2 : ℚ) ^ 53 by
      rw [show bigIntOfHex "0x20000000000000" = 2 ^ 53 from by decide]
      push_cast
      norm_num]
  rw [f64round_pow53_add_one, f64round_pow53]

/-- C8 counterexample: the wei amounts `0x20000000000000` (`2^53`) and
`0x20000000000001` (`2^53 + 1`) are distinct, yet `hexToEther` — which
routes the BigInt wei value through a 64-bit float — converts them to the
same ether value, so amount conversion does go through a binary float that
loses precision. -/
theorem claim_C8_float_precision_counterexample :
    bigIntOfHex "0x20000000000001" ≠ bigIntOfHex "0x20000000000000" ∧
    hexToEther "0x20000000000001" = hexToEther "0x20000000000000" :=
  ⟨by decide, hexToEther_pow53_collapse⟩

/-- C8 amended: `calculateTokenAmount` (the wei-to-display conversion used
by `verifyDeposit`) performs exact arbitrary-precision BigInt arithmetic —
parsing its output recovers exactly `v / 10^dec` — but `hexToEther` in
`transactionUtils` routes the wei amount through a 64-bit binary float
(`Number(wei) / 1e18`), which collapses distinct wei values at `2^53`, and
the tolerance comparison itself uses `parseFloat` doubles. -/
theorem claim_C8_amount_arithmetic :
    (∀ v dec : ℕ,
      parseFloat (calculateTokenAmount (⟨natToChars v⟩ : String) dec) =
        JsNum.num ((v : ℚ) / 10 ^ dec)) ∧
    hexToEther "0x20000000000001" = hexToEther "0x20000000000000" :=
  ⟨calculateTokenAmount_exact, hexToEther_pow53_collapse⟩

/-- Witness for C10 (amended): a concrete TON transaction whose inbound
comment is "USDT deposit" (no number) yields a USDT transfer entry with
the constant value `'10'`. -/
theorem claim_C10_ton_usdt_fallback_witness :
    tonUsdtCommentTx.inMessage.isSome = true ∧
    strIncludes (tonCommentOf tonUsdtCommentTx) "USDT" = true ∧
    ∃ t ∈ extractTonTokenTransfersNoOpcode tonUsdtCommentTx,
      t.tokenName = "USDT" ∧ t.value = "10" :=
  ⟨rfl, by decide,
   (claim_C10_ton_usdt_fallback tonUsdtCommentTx).1 rfl (by decide)⟩

end DepositEngine
